import Mathlib

/-!
Shallow embedding of the core of `pdf-finder-pro` (a Rust/Tauri PDF indexing
and search application) together with proofs about it.

Sources embedded:
* `src/src-tauri/src/lib.rs` — `transform_query` (query normalization);
* `src/src-tauri/src/indexer.rs` — `index_folder`, `filter_files_to_process`,
  `remove_deleted_files`, `extract_text_from_pdf`, `normalize_text`,
  `estimate_page_count`;
* `src/src-tauri/src/database.rs` — the document store (`pdfs` and
  `indexed_folders` tables) and its operations `insert_pdf`,
  `batch_insert_pdfs`, `get_files_in_folder`, `remove_pdf_by_path`,
  `remove_indexed_folder`, `remove_pdfs_for_folder`, `clear`, `search`,
  `add_indexed_folder`, `parse_date_to_timestamp`, `optimize_search_query`.

Rust strings are embedded as `List Char` (a `char` sequence) together with an
explicit UTF-8 byte length, so that the byte-indexed operations of the source
(`str::len`, byte slicing) keep their exact semantics.
-/

namespace PdfFinder

/-- UTF-8 byte length of a string viewed as its character list
    (Rust `str::len`). -/
def byteLen (s : List Char) : Nat := (s.map Char.utf8Size).sum

/-- The Unicode White_Space property, as used by Rust `char::is_whitespace`
    and `str::split_whitespace`. -/
def rust_is_whitespace (c : Char) : Bool :=
  decide ((0x09 ≤ c.toNat ∧ c.toNat ≤ 0x0D) ∨ c.toNat = 0x20 ∨ c.toNat = 0x85 ∨
    c.toNat = 0xA0 ∨ c.toNat = 0x1680 ∨ (0x2000 ≤ c.toNat ∧ c.toNat ≤ 0x200A) ∨
    c.toNat = 0x2028 ∨ c.toNat = 0x2029 ∨ c.toNat = 0x202F ∨ c.toNat = 0x205F ∨
    c.toNat = 0x3000)

/-- Rust `str::split_whitespace`: split on runs of whitespace, producing no
    empty tokens. -/
def split_ws : List Char → List (List Char)
  | [] => []
  | c :: r =>
    if rust_is_whitespace c then split_ws r
    else
      match r, split_ws r with
      | [], _ => [[c]]
      | d :: _, rest =>
        if rust_is_whitespace d then [c] :: rest
        else
          match rest with
          | [] => [[c]]
          | t :: ts => (c :: t) :: ts

/-- ASCII uppercasing of one character; other characters are kept as-is.
    (Rust `str::to_uppercase` performs full Unicode uppercasing, but the
    source only ever compares the uppercased token against the ASCII strings
    "AND"/"OR"/"NOT" and otherwise discards it, and no non-ASCII character
    uppercases into those strings, so the restriction is faithful there.) -/
def ascii_upper (c : Char) : Char :=
  if 'a' ≤ c ∧ c ≤ 'z' then Char.ofNat (c.toNat - 32) else c

/-- Whether a token is literally one of the FTS5 boolean operators,
    as compared by the source (`t == "AND" || t == "OR" || t == "NOT"`). -/
def is_boolean_operator (t : List Char) : Bool :=
  decide (t = "AND".toList ∨ t = "OR".toList ∨ t = "NOT".toList)

/-- The per-token map of `transform_query`: uppercase the token; if the
    uppercase form is a boolean operator keep the uppercase form, otherwise
    keep the original token. -/
def transform_token (t : List Char) : List Char :=
  let upper := t.map ascii_upper
  if is_boolean_operator upper then upper else t

/-- A token that case-insensitively equals one of the boolean operators. -/
def token_is_operator_ci (t : List Char) : Bool :=
  is_boolean_operator (t.map ascii_upper)

/-- Rust byte slice `&s[..n]`: `some` prefix when byte index `n` is a char
    boundary of `s`, `none` when the slice panics (out of range or not a
    character boundary). -/
def slice_to_byte : Nat → List Char → Option (List Char)
  | 0, _ => some []
  | _ + 1, [] => none
  | n + 1, c :: r =>
    if c.utf8Size ≤ n + 1 then
      (slice_to_byte (n + 1 - c.utf8Size) r).map (fun t => c :: t)
    else none

def MAX_QUERY_LENGTH : Nat := 1000

def MAX_TOKENS : Nat := 50

/-- Embedding of `transform_query` from `src/src-tauri/src/lib.rs`: bound the raw query to
    1000 bytes and 50 tokens, uppercase boolean operators, and either keep the
    user's boolean structure (single-space join) or join plain multi-term
    queries with " OR ". A `none` result models the panic of the byte slice
    `&query[..MAX_QUERY_LENGTH]` when byte 1000 is not a char boundary. -/
def transform_query (query : List Char) : Option (List Char) :=
  (if byteLen query > MAX_QUERY_LENGTH then slice_to_byte MAX_QUERY_LENGTH query
   else some query).map fun q =>
    let tokens := (split_ws q).map transform_token
    let tokens := if tokens.length > MAX_TOKENS then tokens.take MAX_TOKENS else tokens
    let has_boolean_operator := tokens.any is_boolean_operator
    if has_boolean_operator then List.intercalate [' '] tokens
    else if tokens.length > 1 then List.intercalate (" OR ".toList) tokens
    else List.intercalate [' '] tokens

/-- Non-overlapping occurrences of the substring `"\n\n\n"`, scanned left to
    right (Rust `text.matches("\n\n\n").count()`). -/
def count_triple_newline : List Char → Nat
  | '\n' :: '\n' :: '\n' :: r => count_triple_newline r + 1
  | _ :: r => count_triple_newline r
  | [] => 0

/-- Number of form-feed characters `'\x0C'` in the text
    (`text.chars().filter(|&c| c == '\x0C').count()`). -/
def form_feed_count (text : List Char) : Nat :=
  (text.filter (fun c => c == Char.ofNat 12)).length

/-- Embedding of `estimate_page_count` from `src/src-tauri/src/indexer.rs`. The source
    computes in `f64` and `i32`; over every reachable value the floating
    computations are exact, so the embedding uses Nat arithmetic:
    `(n as f64 * 0.8) as i32` truncates to `4 * n / 5` (`fl(n * fl(0.8))`
    never crosses an integer for these `n`), and
    `(chars as f64 / 3000.0).ceil()` is the exact ceiling. `text.len()` in
    the source is the UTF-8 byte length. -/
def estimate_page_count (text : List Char) : Nat :=
  if text = [] then 0
  else
    let form_feeds := form_feed_count text
    if form_feeds > 0 then form_feeds + 1
    else
      let newline_sequences := count_triple_newline text
      let density := max ((byteLen text + 2999) / 3000) 1
      if newline_sequences > 5 then
        let estimated := 4 * newline_sequences / 5 + 1
        if estimated > 1 then estimated else density
      else density

/-- The page-estimation policy exactly as claim C3 words it: rule (b) rounds
    `n × 0.8` to the nearest integer (`(8 n + 5) / 10`; the fraction of
    `0.8 n` is never one half, so the half-rounding direction is immaterial)
    and rule (c) divides the number of characters, not bytes. At the inputs
    considered below, counting "triple-newline runs" and counting
    non-overlapping occurrences of `"\n\n\n"` coincide. -/
def estimate_page_count_claimed (text : List Char) : Nat :=
  if text = [] then 0
  else
    let form_feeds := form_feed_count text
    if form_feeds > 0 then form_feeds + 1
    else
      let n := count_triple_newline text
      let density := max ((text.length + 2999) / 3000) 1
      if n > 5 then
        let rounded := (8 * n + 5) / 10 + 1
        if rounded > 1 then rounded else density
      else density

/-- Embedding of `normalize_text` from `src/src-tauri/src/indexer.rs`: collapse whitespace
    runs to single spaces, then trim. The source trims with
    `str::trim`, i.e. by `char::is_whitespace`; after collapsing, the only
    whitespace left is ASCII spaces. -/
def collapse_ws : List Char → Bool → List Char
  | [], _ => []
  | c :: r, prev_was_space =>
    if rust_is_whitespace c then
      if prev_was_space then collapse_ws r true else ' ' :: collapse_ws r true
    else c :: collapse_ws r false

/-- Rust `str::trim` restricted to the output of `collapse_ws` (drops leading
    and trailing whitespace characters). -/
def trim_ws (s : List Char) : List Char :=
  ((s.dropWhile rust_is_whitespace).reverse.dropWhile rust_is_whitespace).reverse

def normalize_text (text : List Char) : List Char :=
  trim_ws (collapse_ws text false)

/-! ## Document store (`src/src-tauri/src/database.rs`) -/

/-- The Rust `PdfDocument` struct (the `id` field is never written by the
    store: the `INSERT` statements omit the `id` column, so the store assigns
    a fresh autoincrement id on every insert). -/
structure PdfDocument where
  id : Option Int
  path : String
  title : String
  content : List Char
  size : Int
  modified : Int
  pages : Option Nat
deriving Repr, DecidableEq

/-- One row of the `pdfs` table: schema
    `(id INTEGER PRIMARY KEY AUTOINCREMENT, path TEXT UNIQUE NOT NULL, title,
    content, size, modified, pages, folder_path)`. -/
structure PdfRow where
  id : Nat
  path : String
  title : String
  content : List Char
  size : Int
  modified : Int
  pages : Option Nat
  folder_path : String
deriving Repr, DecidableEq

/-- The persistent state: the `pdfs` table (with its autoincrement counter)
    and the `indexed_folders` table `(path TEXT PRIMARY KEY, last_indexed)`.
    The list order of `pdfs` is a modelling artifact; rows are keyed by
    `path` (UNIQUE) and `id` (PRIMARY KEY). -/
structure DB where
  next_id : Nat
  pdfs : List PdfRow
  folders : List (String × Int)
deriving Repr, DecidableEq

def DB.empty : DB := ⟨1, [], []⟩

def row_of (id : Nat) (doc : PdfDocument) (folder_path : String) : PdfRow :=
  ⟨id, doc.path, doc.title, doc.content, doc.size, doc.modified, doc.pages, folder_path⟩

/-- Embedding of `insert_pdf`: `INSERT OR REPLACE INTO pdfs (path, title, content, size,
    modified, pages, folder_path) VALUES (...)`. SQLite `REPLACE` deletes any
    row conflicting on the UNIQUE `path` column and inserts the new row with
    a fresh autoincrement id. -/
def insert_pdf (db : DB) (doc : PdfDocument) (folder_path : String) : DB :=
  { db with
    next_id := db.next_id + 1,
    pdfs := db.pdfs.filter (fun r => r.path ≠ doc.path) ++ [row_of db.next_id doc folder_path] }

/-- The statement loop of `batch_insert_pdfs`, running inside one rusqlite
    transaction: each row executes the same `INSERT OR REPLACE` as
    `insert_pdf`; on the first failing statement the error propagates, the
    transaction is dropped without commit, and rusqlite rolls back to the
    state `orig` from before the transaction. `stmt_fails` is the failure
    oracle for the underlying storage layer. -/
def batch_insert_go (stmt_fails : PdfDocument → Bool) (folder_path : String) (orig : DB) :
    DB → List PdfDocument → DB × Bool
  | cur, [] => (cur, true)
  | cur, doc :: rest =>
    if stmt_fails doc then (orig, false)
    else batch_insert_go stmt_fails folder_path orig (insert_pdf cur doc folder_path) rest

/-- Embedding of `batch_insert_pdfs`: all rows in a single transaction; the Bool is
    `true` exactly when the transaction committed. -/
def batch_insert_pdfs (stmt_fails : PdfDocument → Bool) (db : DB) (docs : List PdfDocument)
    (folder_path : String) : DB × Bool :=
  batch_insert_go stmt_fails folder_path db db docs

/-- Embedding of `get_files_in_folder`: `SELECT path, modified, size FROM pdfs WHERE
    folder_path = ?1`, collected into a map `path -> (modified, size)`. -/
def get_files_in_folder (db : DB) (folder_path : String) : List (String × Int × Int) :=
  (db.pdfs.filter (fun r => r.folder_path = folder_path)).map fun r => (r.path, r.modified, r.size)

/-- Lookup in the snapshot map. The source inserts rows into a `HashMap` in
    query order, so a later row with the same path wins; hence the lookup on
    the reversed list. -/
def snapshot_lookup (snap : List (String × Int × Int)) (p : String) : Option (Int × Int) :=
  (snap.reverse.find? (fun e => e.1 = p)).map (fun e => e.2)

/-- Embedding of `remove_pdf_by_path`: `DELETE FROM pdfs WHERE path = ?1`. -/
def remove_pdf_by_path (db : DB) (path : String) : DB :=
  { db with pdfs := db.pdfs.filter (fun r => r.path ≠ path) }

/-- Embedding of `clear`: `DELETE FROM pdfs`. -/
def clear (db : DB) : DB :=
  { db with pdfs := [] }

def get_count (db : DB) : Nat := db.pdfs.length

/-- Embedding of `add_indexed_folder`: `INSERT OR REPLACE INTO indexed_folders
    (path, last_indexed) VALUES (?1, ?2)` with the current wall-clock time,
    passed here explicitly as `now`. -/
def add_indexed_folder (db : DB) (folder_path : String) (now : Int) : DB :=
  { db with folders := db.folders.filter (fun e => e.1 ≠ folder_path) ++ [(folder_path, now)] }

/-- Embedding of `remove_indexed_folder`: `DELETE FROM pdfs WHERE folder_path = ?1` then
    `DELETE FROM indexed_folders WHERE path = ?1`. -/
def remove_indexed_folder (db : DB) (folder_path : String) : DB :=
  { db with
    pdfs := db.pdfs.filter (fun r => r.folder_path ≠ folder_path),
    folders := db.folders.filter (fun e => e.1 ≠ folder_path) }

/-- Embedding of `remove_pdfs_for_folder`: `DELETE FROM pdfs WHERE folder_path = ?1`. -/
def remove_pdfs_for_folder (db : DB) (folder_path : String) : DB :=
  { db with pdfs := db.pdfs.filter (fun r => r.folder_path ≠ folder_path) }

/-! ### Date parsing (`parse_date_to_timestamp`) -/

def is_digit (c : Char) : Bool := decide ('0' ≤ c ∧ c ≤ '9')

def digits_to_nat (l : List Char) : Nat := l.foldl (fun a c => a * 10 + (c.toNat - 48)) 0

/-- Proleptic-Gregorian leap year. -/
def is_leap_year (y : Int) : Bool :=
  Int.emod y 4 == 0 && (Int.emod y 100 != 0 || Int.emod y 400 == 0)

def days_in_month (y : Int) (m : Nat) : Nat :=
  match m with
  | 1 => 31
  | 2 => if is_leap_year y then 29 else 28
  | 3 => 31
  | 4 => 30
  | 5 => 31
  | 6 => 30
  | 7 => 31
  | 8 => 31
  | 9 => 30
  | 10 => 31
  | 11 => 30
  | 12 => 31
  | _ => 0

/-- Days from the civil epoch 1970-01-01 to the given proleptic-Gregorian
    date (`days_from_civil`, using floor division throughout). -/
def days_from_civil (y : Int) (m d : Nat) : Int :=
  let y2 := if m ≤ 2 then y - 1 else y
  let era := Int.fdiv y2 400
  let yoe := y2 - era * 400
  let mp : Int := ((m + 9) % 12 : Nat)
  let doy := Int.fdiv (153 * mp + 2) 5 + (d : Int) - 1
  let doe := yoe * 365 + Int.fdiv yoe 4 - Int.fdiv yoe 100 + doy
  era * 146097 + doe - 719468

/-- Scan of at most `max` leading decimal digits, returning the digits read
    and the rest of the input (chrono `scan::number` with its width cap;
    the caller checks the at-least-one-digit minimum). -/
def take_digits : Nat → List Char → List Char × List Char
  | 0, s => ([], s)
  | _, [] => ([], [])
  | n + 1, c :: r =>
    if is_digit c then
      let p := take_digits n r
      (c :: p.1, p.2)
    else ([], c :: r)

/-- Embedding of `parse_date_to_timestamp` from `src/src-tauri/src/database.rs`:
    parse the string with chrono `NaiveDate::parse_from_str(s, "%Y-%m-%d")`
    and return the Unix timestamp of that date at 00:00:00 UTC. `none` models
    the `Err` of `parse_from_str`. Chrono semantics of `%Y-%m-%d`: each
    numeric field first skips leading Unicode whitespace; the year accepts an
    optional `+`/`-` sign with unbounded digits after a sign but at most 4
    digits without one; month and day scan at most 2 digits; each field needs
    at least one digit; the dashes are literal; the whole input must be
    consumed; and the date must be a valid proleptic-Gregorian date within
    chrono's `NaiveDate` year range -262144..=262143. -/
def parse_date_to_timestamp (s : List Char) : Option Int :=
  let s1 := s.dropWhile rust_is_whitespace
  let year_scan : Option (Int × List Char) :=
    match s1 with
    | '+' :: r =>
      let d := r.takeWhile is_digit
      if d = [] then none
      else some (((digits_to_nat d : Nat) : Int), r.dropWhile is_digit)
    | '-' :: r =>
      let d := r.takeWhile is_digit
      if d = [] then none
      else some (-((digits_to_nat d : Nat) : Int), r.dropWhile is_digit)
    | r =>
      let p := take_digits 4 r
      if p.1 = [] then none
      else some (((digits_to_nat p.1 : Nat) : Int), p.2)
  match year_scan with
  | none => none
  | some (y, rest1) =>
    match rest1 with
    | '-' :: rest2 =>
      let mp := take_digits 2 (rest2.dropWhile rust_is_whitespace)
      if mp.1 = [] then none
      else
        match mp.2 with
        | '-' :: rest4 =>
          let dp := take_digits 2 (rest4.dropWhile rust_is_whitespace)
          if dp.1 = [] ∨ dp.2 ≠ [] then none
          else
            let m := digits_to_nat mp.1
            let d := digits_to_nat dp.1
            if -262144 ≤ y ∧ y ≤ 262143 ∧ 1 ≤ m ∧ m ≤ 12 ∧ 1 ≤ d ∧
                d ≤ days_in_month y m then
              some (days_from_civil y m d * 86400)
            else none
        | _ => none
    | _ => none

/-! ### Search -/

/-- The Rust `SearchFilters` struct. -/
structure SearchFilters where
  min_size : Option Int
  max_size : Option Int
  date_from : Option (List Char)
  date_to : Option (List Char)

/-- The Rust `SearchResult` struct. -/
structure SearchResult where
  path : String
  title : String
  size : Int
  modified : Int
  pages : Option Nat
  snippet : Option (List Char)
deriving Repr, DecidableEq

/-- Embedding of `optimize_search_query`: trim and collapse inner whitespace
    (`query.trim().split_whitespace().collect().join(" ")`). -/
def optimize_search_query (q : List Char) : List Char :=
  if q = [] then q else List.intercalate [' '] (split_ws q)

/-- Embedding of `Database::search`. The SQL filter chain is translated from source: rows
    must MATCH the FTS5 query, satisfy the optional size bounds, and satisfy
    a date bound only when its string parses (`if let Ok(timestamp) = ...`);
    results are ordered by bm25 rank and capped at `LIMIT 100`. The FTS5
    internals are external to the repository and appear as parameters:
    `match_fts` (the MATCH predicate), `rank_order` (the `ORDER BY
    bm25(pdfs_fts)` sort of the matched rows) and `snippet_of` (the
    `snippet(...)` SQL function). -/
def search (match_fts : List Char → PdfRow → Bool) (rank_order : List PdfRow → List PdfRow)
    (snippet_of : List Char → PdfRow → Option (List Char))
    (db : DB) (query : List Char) (filters : SearchFilters) : List SearchResult :=
  let optimized_query := optimize_search_query query
  let passes := fun (r : PdfRow) =>
    match_fts optimized_query r
    && (match filters.min_size with
        | some m => decide (m ≤ r.size)
        | none => true)
    && (match filters.max_size with
        | some m => decide (r.size ≤ m)
        | none => true)
    && (match filters.date_from with
        | some d =>
          match parse_date_to_timestamp d with
          | some ts => decide (ts ≤ r.modified)
          | none => true
        | none => true)
    && (match filters.date_to with
        | some d =>
          match parse_date_to_timestamp d with
          | some ts => decide (r.modified ≤ ts + 86400)
          | none => true
        | none => true)
  ((rank_order (db.pdfs.filter passes)).take 100).map
    fun r => ⟨r.path, r.title, r.size, r.modified, r.pages, snippet_of optimized_query r⟩

/-! ## Indexer (`src/src-tauri/src/indexer.rs`) -/

/-- The Rust `IndexConfig` struct. -/
structure IndexConfig where
  max_file_size : Int
  min_file_size : Int
  max_threads : Nat

/-- Embedding of `IndexConfig::default()`: 100 MB maximum, 100 byte minimum. -/
def IndexConfig.default : IndexConfig := ⟨100 * 1024 * 1024, 100, 0⟩

/-- Outcome of `std::panic::catch_unwind(|| pdf_extract::extract_text(path))`:
    the untrusted extractor returns text, returns an error, or panics. -/
inductive ExtractOutcome where
  | ok (text : List Char)
  | extractError
  | crashed

/-- A regular file discovered on disk by `collect_pdf_files`, with the
    metadata `fs::metadata` reports for it. -/
structure FsFile where
  path : String
  size : Int
  modified : Int
deriving Repr, DecidableEq

/-- Embedding of `extract_text_from_pdf`: reject missing files with an error; return empty
    text and zero pages for out-of-bounds sizes, extractor errors, extractor
    panics and empty extractions; otherwise normalize the text and estimate
    pages (from the raw text). -/
def extract_text_from_pdf (config : IndexConfig) (file_exists : Bool) (size : Int)
    (outcome : ExtractOutcome) : Except String (List Char × Nat) :=
  if !file_exists then .error "File does not exist"
  else if size < config.min_file_size then .ok ([], 0)
  else if size > config.max_file_size then .ok ([], 0)
  else
    match outcome with
    | .ok text =>
      if text = [] then .ok ([], 0)
      else .ok (normalize_text text, estimate_page_count text)
    | .extractError => .ok ([], 0)
    | .crashed => .ok ([], 0)

/-- Rust `Path::file_name`: the component after the last `/`. -/
def file_name_of (p : List Char) : List Char :=
  (p.reverse.takeWhile (fun c => c ≠ '/')).reverse

/-- Rust `Path::file_stem`: the file name up to (not including) its final
    `.`, except that a leading `.` with no other `.` is kept whole. -/
def file_stem (p : List Char) : Option (List Char) :=
  let n := file_name_of p
  if n = [] then none
  else
    let pre := (n.reverse.dropWhile (fun c => c ≠ '.')).reverse
    match pre with
    | [] => some n
    | [_] => some n
    | _ => some pre.dropLast

/-- Title derivation in `extract_pdf_data`:
    `path.file_stem().and_then(to_str).unwrap_or("Untitled")`. -/
def title_of (p : String) : String :=
  ((file_stem p.toList).map List.asString).getD "Untitled"

/-- Embedding of `extract_pdf_data`: build the `PdfDocument` for one discovered file. The
    file was discovered on disk, so it exists and its metadata is the
    discovered metadata; `oracle` gives the untrusted extractor's outcome for
    each path. -/
def extract_pdf_data (config : IndexConfig) (oracle : String → ExtractOutcome)
    (f : FsFile) : Except String PdfDocument :=
  match extract_text_from_pdf config true f.size (oracle f.path) with
  | .error e => .error e
  | .ok (content, pages) =>
    .ok { id := none, path := f.path, title := title_of f.path, content := content,
          size := f.size, modified := f.modified, pages := some pages }

/-- Embedding of `filter_files_to_process`: keep a discovered file iff it is absent from
    the store snapshot or its modified time or size differs. -/
def filter_files_to_process (all_files : List FsFile)
    (existing_files : List (String × Int × Int)) : List FsFile :=
  all_files.filter fun f =>
    match snapshot_lookup existing_files f.path with
    | some (existing_modified, existing_size) =>
      decide (existing_modified ≠ f.modified ∨ existing_size ≠ f.size)
    | none => true

/-- Embedding of `remove_deleted_files`: delete from the store every snapshot path that is
    no longer among the discovered files (the source iterates the
    deduplicated `HashMap` keys; `remove_pdf_by_path` is idempotent, so
    folding over the raw projection reaches the same state). Each removal is
    best-effort in the source (a failure is logged, not propagated); the
    model takes the store reachable, so each removal succeeds. -/
def remove_deleted_files (db : DB) (current_files : List FsFile)
    (existing_files : List (String × Int × Int)) : DB :=
  let current_paths := current_files.map FsFile.path
  let deleted_files := (existing_files.map (fun e => e.1)).filter (fun p => p ∉ current_paths)
  deleted_files.foldl (fun d p => remove_pdf_by_path d p) db

/-- Embedding of `index_folder` from `src/src-tauri/src/indexer.rs`, for one run over the
    files `pdf_files` that `collect_pdf_files` discovered on disk (directory
    walking is I/O and enters the model as this list), at wall-clock time
    `now`, with the store reachable (database errors, which would abort the
    run, do not occur). Mirrors the source control flow: empty discovery
    returns early after only recording the folder; otherwise snapshot, diff,
    deletion cleanup, parallel extraction (failed extractions are logged and
    dropped), a single batch insert when anything was extracted, and the
    folder-timestamp update. Returns the new state and the processed count. -/
def index_folder (config : IndexConfig) (oracle : String → ExtractOutcome) (db : DB)
    (folder_path : String) (pdf_files : List FsFile) (now : Int) : DB × Nat :=
  if pdf_files = [] then (add_indexed_folder db folder_path now, 0)
  else
    let existing_files := get_files_in_folder db folder_path
    let files_to_process := filter_files_to_process pdf_files existing_files
    let db1 := remove_deleted_files db pdf_files existing_files
    if files_to_process = [] then (add_indexed_folder db1 folder_path now, 0)
    else
      let docs := files_to_process.filterMap fun f => (extract_pdf_data config oracle f).toOption
      let count := docs.length
      let db2 := if count > 0 then (batch_insert_pdfs (fun _ => false) db1 docs folder_path).1 else db1
      (add_indexed_folder db2 folder_path now, count)

/-- One store-mutating operation of the invocation surface, for stating
    invariants over arbitrary operation sequences. -/
inductive StoreOp where
  | insertOp (doc : PdfDocument) (folder_path : String)
  | batchOp (stmt_fails : PdfDocument → Bool) (docs : List PdfDocument) (folder_path : String)
  | removePathOp (path : String)
  | removeFolderOp (folder_path : String)
  | removePdfsForFolderOp (folder_path : String)
  | clearOp
  | indexRunOp (config : IndexConfig) (oracle : String → ExtractOutcome)
      (folder_path : String) (pdf_files : List FsFile) (now : Int)

def apply_store_op (db : DB) : StoreOp → DB
  | .insertOp doc folder => insert_pdf db doc folder
  | .batchOp fails docs folder => (batch_insert_pdfs fails db docs folder).1
  | .removePathOp p => remove_pdf_by_path db p
  | .removeFolderOp f => remove_indexed_folder db f
  | .removePdfsForFolderOp f => remove_pdfs_for_folder db f
  | .clearOp => clear db
  | .indexRunOp cfg oracle folder files now => (index_folder cfg oracle db folder files now).1

/-- Path-uniqueness invariant of the `pdfs` table: no two rows share a
    `path` (the column is declared UNIQUE). -/
def paths_unique (db : DB) : Prop := (db.pdfs.map PdfRow.path).Nodup

/-! ## Concrete example data for witnesses and counterexamples -/

/-- A sample document used by concrete witnesses. -/
def wit_doc : PdfDocument :=
  { id := none, path := "f/a.pdf", title := "a", content := "hello".toList,
    size := 120, modified := 1, pages := some 1 }

/-- A store holding one indexed document of folder `"f"` at path
    `"f/a.pdf"`, used to exercise indexing runs concretely. -/
def stale_db : DB :=
  { next_id := 2,
    pdfs := [⟨1, "f/a.pdf", "a", [], 500, 10, some 1, "f"⟩],
    folders := [("f", 3)] }

/-! ## Helper lemmas -/

theorem byteLen_append (l₁ l₂ : List Char) : byteLen (l₁ ++ l₂) = byteLen l₁ + byteLen l₂ := by
  simp [byteLen]

theorem byteLen_replicate_a (n : Nat) : byteLen (List.replicate n 'a') = n := by
  have h : ('a').utf8Size = 1 := by decide
  simp [byteLen, h]

theorem form_feed_count_replicate_a (n : Nat) :
    form_feed_count (List.replicate n 'a') = 0 := by
  induction n with
  | zero => rfl
  | succ n ih =>
    rw [List.replicate_succ]
    unfold form_feed_count at ih ⊢
    rw [List.filter_cons_of_neg (by decide)]
    exact ih

theorem count_triple_newline_cons_a (l : List Char) :
    count_triple_newline ('a' :: l) = count_triple_newline l := rfl

theorem count_triple_newline_replicate_a (n : Nat) :
    count_triple_newline (List.replicate n 'a') = 0 := by
  induction n with
  | zero => rfl
  | succ n ih =>
    rw [List.replicate_succ, count_triple_newline_cons_a]
    exact ih

theorem slice_to_byte_hits_multibyte (k : Nat) :
    slice_to_byte (k + 1) (List.replicate k 'a' ++ ['é']) = none := by
  induction k with
  | zero => decide
  | succ k ih =>
    rw [List.replicate_succ, List.cons_append]
    show slice_to_byte (k + 1 + 1) ('a' :: (List.replicate k 'a' ++ ['é'])) = none
    rw [slice_to_byte]
    have h1 : ('a').utf8Size ≤ k + 1 + 1 := by
      have : ('a').utf8Size = 1 := by decide
      omega
    rw [if_pos h1]
    have h2 : k + 1 + 1 - ('a').utf8Size = k + 1 := by
      have : ('a').utf8Size = 1 := by decide
      omega
    rw [h2, ih]
    rfl

/-! ## Claims -/

/-- Claim C4. For every existing, metadata-readable file: if its size is below
    the 100-byte minimum or above the 100 MB maximum, or the underlying
    extractor returns an error or crashes (panics) while parsing, extraction
    returns a normal success result with empty text and zero pages and never
    propagates a fatal error to the caller. -/
theorem extract_rejections_return_empty_success (size : Int) (outcome : ExtractOutcome)
    (h : size < 100 ∨ 100 * 1024 * 1024 < size ∨
      outcome = ExtractOutcome.extractError ∨ outcome = ExtractOutcome.crashed) :
    extract_text_from_pdf IndexConfig.default true size outcome = .ok ([], 0) := by
  have e1 : IndexConfig.default.min_file_size = 100 := rfl
  have e2 : IndexConfig.default.max_file_size = 104857600 := rfl
  unfold extract_text_from_pdf
  rw [e1, e2]
  split_ifs with hex h1 h2
  · exact absurd hex (by decide)
  · rfl
  · rfl
  · rcases h with h | h | h | h
    · omega
    · exact absurd h (by omega)
    · subst h; rfl
    · subst h; rfl

theorem extract_rejections_return_empty_success_witness :
    extract_text_from_pdf IndexConfig.default true 50 (ExtractOutcome.ok "hello".toList) =
      .ok ([], 0) :=
  extract_rejections_return_empty_success 50 (ExtractOutcome.ok "hello".toList)
    (Or.inl (by decide))

/-- Claim C5. For every discovered file and every known-files snapshot, the file
    is selected for (re)processing if and only if its path is absent from the
    snapshot, or its current byte size differs from the snapshot's recorded
    size, or its current modified-time differs from the snapshot's recorded
    modified-time; a file whose size and modified-time both match is not
    reprocessed. -/
theorem filter_files_selects_iff_changed (all_files : List FsFile)
    (snap : List (String × Int × Int)) (f : FsFile) :
    f ∈ filter_files_to_process all_files snap ↔
      f ∈ all_files ∧
        (snapshot_lookup snap f.path = none ∨
          ∃ em es, snapshot_lookup snap f.path = some (em, es) ∧
            (em ≠ f.modified ∨ es ≠ f.size)) := by
  unfold filter_files_to_process
  rw [List.mem_filter]
  constructor
  · rintro ⟨hmem, hsel⟩
    refine ⟨hmem, ?_⟩
    rcases hlook : snapshot_lookup snap f.path with _ | ⟨em, es⟩
    · exact Or.inl rfl
    · rw [hlook] at hsel
      simp only [decide_eq_true_eq] at hsel
      exact Or.inr ⟨em, es, rfl, hsel⟩
  · rintro ⟨hmem, hsel⟩
    refine ⟨hmem, ?_⟩
    rcases hsel with hnone | ⟨em, es, hsome, hdiff⟩
    · rw [hnone]
    · rw [hsome]
      simp only [decide_eq_true_eq]
      exact hdiff

/-- Claim C2. The claim states that query normalization totally succeeds on
    every raw query string, including strings longer than 1000 characters
    with multi-byte characters. The code instead truncates with the byte
    slice `&query[..1000]`, which panics whenever byte 1000 of the query is
    not a character boundary. Concretely, 999 ASCII characters followed by
    the two-byte character `é` (1001 bytes in total) panics: the model
    returns `none` (the panic outcome) rather than a normalized query. -/
theorem transform_query_panics_on_multibyte_boundary :
    transform_query (List.replicate 999 'a' ++ ['é']) = none := by
  have hlen : byteLen (List.replicate 999 'a' ++ ['é']) = 1001 := by
    rw [byteLen_append, byteLen_replicate_a]
    decide
  have hs : slice_to_byte MAX_QUERY_LENGTH (List.replicate 999 'a' ++ ['é']) = none :=
    slice_to_byte_hits_multibyte 999
  have hgt : byteLen (List.replicate 999 'a' ++ ['é']) > MAX_QUERY_LENGTH := by
    rw [hlen]; decide
  unfold transform_query
  rw [if_pos hgt, hs]
  rfl

/-- Claim C3, counterexample. The claim computes rule (b) as
    `round(n × 0.8) + 1`. On a text with exactly six triple-newline runs
    (each of exactly three newlines, so every reading of "run" counts 6) and
    no form feeds, the claim predicts `round(4.8) + 1 = 6` pages, but the
    code truncates (`as i32`) and yields `trunc(4.8) + 1 = 5` pages. -/
theorem estimate_page_count_truncates_not_rounds :
    count_triple_newline ("a\n\n\nb\n\n\nc\n\n\nd\n\n\ne\n\n\nf\n\n\ng".toList) = 6 ∧
    form_feed_count ("a\n\n\nb\n\n\nc\n\n\nd\n\n\ne\n\n\nf\n\n\ng".toList) = 0 ∧
    estimate_page_count ("a\n\n\nb\n\n\nc\n\n\nd\n\n\ne\n\n\nf\n\n\ng".toList) = 5 ∧
    estimate_page_count_claimed ("a\n\n\nb\n\n\nc\n\n\nd\n\n\ne\n\n\nf\n\n\ng".toList) = 6 := by
  refine ⟨by decide, by decide, by decide, by decide⟩

/-- Claim C3, amended. For every extracted text, the page estimate is computed
    by the first matching rule in order: (a) if the text contains at least
    one form-feed character, pages = form-feed count + 1; (b) else if the
    number n of non-overlapping occurrences of `"\n\n\n"` exceeds 5,
    pages = trunc(n × 0.8) + 1 (which always exceeds 1 there); (c) else
    pages = ceil(utf8_byte_count / 3000) with minimum 1; and empty text
    yields 0 pages. In particular a 3000-character plain (ASCII) text yields
    1 page, a 3001-character plain text yields 2 pages, and a text with
    exactly 2 form feeds yields 3 pages regardless of length. -/
theorem estimate_page_count_policy :
    (∀ text : List Char,
      (text = [] → estimate_page_count text = 0) ∧
      (0 < form_feed_count text →
        estimate_page_count text = form_feed_count text + 1) ∧
      (form_feed_count text = 0 → 5 < count_triple_newline text →
        estimate_page_count text = 4 * count_triple_newline text / 5 + 1) ∧
      (text ≠ [] → form_feed_count text = 0 → count_triple_newline text ≤ 5 →
        estimate_page_count text = max ((byteLen text + 2999) / 3000) 1) ∧
      (form_feed_count text = 2 → estimate_page_count text = 3)) ∧
    estimate_page_count (List.replicate 3000 'a') = 1 ∧
    estimate_page_count (List.replicate 3001 'a') = 2 := by
  have main : ∀ text : List Char,
      (text = [] → estimate_page_count text = 0) ∧
      (0 < form_feed_count text →
        estimate_page_count text = form_feed_count text + 1) ∧
      (form_feed_count text = 0 → 5 < count_triple_newline text →
        estimate_page_count text = 4 * count_triple_newline text / 5 + 1) ∧
      (text ≠ [] → form_feed_count text = 0 → count_triple_newline text ≤ 5 →
        estimate_page_count text = max ((byteLen text + 2999) / 3000) 1) ∧
      (form_feed_count text = 2 → estimate_page_count text = 3) := by
    intro text
    have hffnil : form_feed_count ([] : List Char) = 0 := rfl
    have htrnil : count_triple_newline ([] : List Char) = 0 := rfl
    refine ⟨?_, ?_, ?_, ?_, ?_⟩
    · intro h
      simp [estimate_page_count, h]
    · intro hff
      have hne : text ≠ [] := by
        intro h
        rw [h, hffnil] at hff
        omega
      simp [estimate_page_count, hne, hff]
    · intro hff hn
      have hne : text ≠ [] := by
        intro h
        rw [h, htrnil] at hn
        omega
      have hest : 1 < 4 * count_triple_newline text / 5 + 1 := by
        have h24 : 24 ≤ 4 * count_triple_newline text := by omega
        have h45 : 24 / 5 ≤ 4 * count_triple_newline text / 5 :=
          Nat.div_le_div_right h24
        omega
      simp [estimate_page_count, hne, hff, hn, hest]
    · intro hne hff hn
      have hn2 : ¬ 5 < count_triple_newline text := by omega
      simp [estimate_page_count, hne, hff, hn2]
    · intro hff
      have hne : text ≠ [] := by
        intro h
        rw [h, hffnil] at hff
        omega
      have hffpos : 0 < form_feed_count text := by omega
      simp [estimate_page_count, hne, hffpos, hff]
  have hrep : ∀ n : Nat, 0 < n → List.replicate n 'a' ≠ [] := by
    intro n hn hC
    have hl := congrArg List.length hC
    rw [List.length_replicate, List.length_nil] at hl
    omega
  refine ⟨main, ?_, ?_⟩
  · have h := (main (List.replicate 3000 'a')).2.2.2.1 (hrep 3000 (by omega))
      (form_feed_count_replicate_a 3000)
      (by rw [count_triple_newline_replicate_a]; omega)
    rw [h, byteLen_replicate_a]
    decide
  · have h := (main (List.replicate 3001 'a')).2.2.2.1 (hrep 3001 (by omega))
      (form_feed_count_replicate_a 3001)
      (by rw [count_triple_newline_replicate_a]; omega)
    rw [h, byteLen_replicate_a]
    decide

theorem estimate_page_count_policy_witness :
    estimate_page_count ("x".toList ++ [Char.ofNat 12, Char.ofNat 12] ++ "y".toList) = 3 :=
  (estimate_page_count_policy.1
    ("x".toList ++ [Char.ofNat 12, Char.ofNat 12] ++ "y".toList)).2.2.2.2 (by decide)

theorem op_map_self {t : List Char} (h : is_boolean_operator t = true) :
    t.map ascii_upper = t := by
  unfold is_boolean_operator at h
  rw [decide_eq_true_eq] at h
  rcases h with h | h | h <;> subst h <;> decide

theorem is_boolean_operator_transform_token (t : List Char) :
    is_boolean_operator (transform_token t) = token_is_operator_ci t := by
  unfold transform_token token_is_operator_ci
  by_cases h : is_boolean_operator (t.map ascii_upper) = true
  · simp [h]
  · rw [Bool.not_eq_true] at h
    rw [if_neg (by simp [h])]
    rw [h]
    by_cases h2 : is_boolean_operator t = true
    · exfalso
      rw [op_map_self h2] at h
      rw [h2] at h
      exact absurd h (by decide)
    · rw [Bool.not_eq_true] at h2
      exact h2

theorem map_transform_token_id {l : List (List Char)}
    (h : l.any token_is_operator_ci = false) : l.map transform_token = l := by
  induction l with
  | nil => rfl
  | cons t l ih =>
    rw [List.any_cons, Bool.or_eq_false_iff] at h
    rw [List.map_cons, ih h.2]
    have ht : transform_token t = t := by
      unfold transform_token
      rw [if_neg]
      rw [Bool.not_eq_true]
      exact h.1
    rw [ht]

theorem any_map_transform_token (l : List (List Char)) :
    (l.map transform_token).any is_boolean_operator = l.any token_is_operator_ci := by
  induction l with
  | nil => rfl
  | cons t l ih =>
    rw [List.map_cons, List.any_cons, List.any_cons, ih, is_boolean_operator_transform_token]

theorem split_ws_no_ws : ∀ (s : List Char), s ≠ [] →
    (∀ c ∈ s, rust_is_whitespace c = false) → split_ws s = [s]
  | [], hne, _ => absurd rfl hne
  | [c], _, h => by
    have hc := h c (by simp)
    simp [split_ws, hc]
  | c :: d :: r, _, h => by
    have hc := h c (by simp)
    have hd := h d (by simp)
    have ih := split_ws_no_ws (d :: r) (by simp)
      (fun x hx => h x (List.mem_cons_of_mem c hx))
    rw [split_ws.eq_def]
    simp only [hc, hd, ih, Bool.false_eq_true, if_false]

theorem intercalate_singleton (sep : List Char) (x : List Char) :
    List.intercalate sep [x] = x := by
  simp [List.intercalate]

/-- Claim C6. For every bounded raw query: if any token case-insensitively
    equals AND, OR or NOT, normalization uppercases those operator tokens and
    rejoins all tokens with single spaces in their original order; if no such
    operator is present and there are at least two tokens, the tokens are
    joined with " OR "; a single-token or empty query passes through
    unchanged apart from bounding. ("Bounded" means within the source's
    bounds — at most 1000 bytes and at most 50 tokens — so the bounding
    steps are the identity; a "single-token query" is a query that is itself
    one whitespace-free token.) -/
theorem transform_query_normalization_cases (q : List Char)
    (hlen : byteLen q ≤ 1000) (htok : (split_ws q).length ≤ 50) :
    ((split_ws q).any token_is_operator_ci = true →
      transform_query q =
        some (List.intercalate [' '] ((split_ws q).map transform_token))) ∧
    ((split_ws q).any token_is_operator_ci = false → 2 ≤ (split_ws q).length →
      transform_query q = some (List.intercalate (" OR ".toList) (split_ws q))) ∧
    ((split_ws q).any token_is_operator_ci = false →
      (∀ c ∈ q, rust_is_whitespace c = false) →
      transform_query q = some q) := by
  have hb : (if byteLen q > MAX_QUERY_LENGTH then slice_to_byte MAX_QUERY_LENGTH q
      else some q) = some q := by
    rw [if_neg]
    unfold MAX_QUERY_LENGTH
    omega
  have hnotrunc : ¬ ((split_ws q).map transform_token).length > MAX_TOKENS := by
    rw [List.length_map]
    unfold MAX_TOKENS
    omega
  have hq : transform_query q =
      some (if ((split_ws q).map transform_token).any is_boolean_operator then
          List.intercalate [' '] ((split_ws q).map transform_token)
        else if ((split_ws q).map transform_token).length > 1 then
          List.intercalate (" OR ".toList) ((split_ws q).map transform_token)
        else List.intercalate [' '] ((split_ws q).map transform_token)) := by
    unfold transform_query
    rw [hb]
    simp only [Option.map_some', if_neg hnotrunc]
  refine ⟨?_, ?_, ?_⟩
  · intro hop
    rw [hq, any_map_transform_token, hop]
    simp
  · intro hop hlen2
    rw [hq, any_map_transform_token, hop, map_transform_token_id hop]
    rw [if_neg (by simp), if_pos (by omega)]
  · intro hop hnws
    by_cases hqe : q = []
    · subst hqe
      rw [hq]
      rfl
    · have hsplit : split_ws q = [q] := split_ws_no_ws q hqe hnws
      rw [hq, any_map_transform_token, hop, map_transform_token_id hop, hsplit]
      rw [if_neg (by simp), if_neg (by simp [hsplit])]
      rw [intercalate_singleton]

theorem transform_query_normalization_cases_witness :
    transform_query ("hello AND world".toList) = some ("hello AND world".toList) := by
  have h := (transform_query_normalization_cases ("hello AND world".toList)
    (by decide) (by decide)).1 (by decide)
  rw [h]
  decide

theorem batch_go_success (stmt_fails : PdfDocument → Bool) (folder : String) (orig : DB) :
    ∀ (docs : List PdfDocument) (cur : DB), (∀ d ∈ docs, stmt_fails d = false) →
      batch_insert_go stmt_fails folder orig cur docs =
        (docs.foldl (fun s d => insert_pdf s d folder) cur, true)
  | [], cur, _ => rfl
  | d :: ds, cur, h => by
    have h0 : stmt_fails d = false := h d (by simp)
    have ih := batch_go_success stmt_fails folder orig ds (insert_pdf cur d folder)
      (fun x hx => h x (List.mem_cons_of_mem d hx))
    simp [batch_insert_go, h0, ih]

theorem batch_go_atomic (stmt_fails : PdfDocument → Bool) (folder : String) (orig : DB) :
    ∀ (docs : List PdfDocument) (cur : DB),
      (batch_insert_go stmt_fails folder orig cur docs).2 = false →
      (batch_insert_go stmt_fails folder orig cur docs).1 = orig
  | [], cur, h => by simp [batch_insert_go] at h
  | d :: ds, cur, h => by
    by_cases h0 : stmt_fails d = true
    · simp [batch_insert_go, h0]
    · rw [Bool.not_eq_true] at h0
      have ih := batch_go_atomic stmt_fails folder orig ds (insert_pdf cur d folder)
        (by simpa [batch_insert_go, h0] using h)
      simpa [batch_insert_go, h0] using ih

/-- Claim C7. For every list of documents and folder path, the batch
    insert-or-replace leaves the store in the same state as performing the
    single-document insert-or-replace for each document in order, and it is
    atomic: if it fails, no document of the batch is committed and the store
    state is unchanged. -/
theorem batch_insert_matches_singles_and_atomic (stmt_fails : PdfDocument → Bool)
    (docs : List PdfDocument) (folder : String) (db : DB) :
    ((∀ d ∈ docs, stmt_fails d = false) →
      batch_insert_pdfs stmt_fails db docs folder =
        (docs.foldl (fun s d => insert_pdf s d folder) db, true)) ∧
    ((batch_insert_pdfs stmt_fails db docs folder).2 = false →
      (batch_insert_pdfs stmt_fails db docs folder).1 = db) :=
  ⟨fun h => batch_go_success stmt_fails folder db docs db h,
   fun h => batch_go_atomic stmt_fails folder db docs db h⟩

theorem batch_insert_matches_singles_and_atomic_witness :
    batch_insert_pdfs (fun _ => false) DB.empty [wit_doc] "f" =
      ([wit_doc].foldl (fun s d => insert_pdf s d "f") DB.empty, true) ∧
    (batch_insert_pdfs (fun _ => true) DB.empty [wit_doc] "f").1 = DB.empty :=
  ⟨(batch_insert_matches_singles_and_atomic (fun _ => false) [wit_doc] "f" DB.empty).1
      (fun _ _ => rfl),
   (batch_insert_matches_singles_and_atomic (fun _ => true) [wit_doc] "f" DB.empty).2
      (by decide)⟩

theorem countP_path_le_one {l : List PdfRow} (h : (l.map PdfRow.path).Nodup) (p : String) :
    l.countP (fun r => decide (r.path = p)) ≤ 1 := by
  induction l with
  | nil => simp
  | cons r l ih =>
    rw [List.map_cons, List.nodup_cons] at h
    rw [List.countP_cons]
    by_cases hr : r.path = p
    · have hz : l.countP (fun r => decide (r.path = p)) = 0 := by
        rw [List.countP_eq_zero]
        intro a ha
        simp only [decide_eq_true_eq]
        intro hap
        exact h.1 (by rw [hr, ← hap]; exact List.mem_map_of_mem PdfRow.path ha)
      simp [hr, hz]
    · simp [hr, ih h.2]

theorem paths_unique_empty : paths_unique DB.empty := by
  simp [paths_unique, DB.empty]

theorem paths_unique_of_filter {db : DB} (p : PdfRow → Bool) (h : paths_unique db) :
    ((db.pdfs.filter p).map PdfRow.path).Nodup :=
  List.Nodup.sublist (List.Sublist.map PdfRow.path (List.filter_sublist db.pdfs)) h

theorem paths_unique_insert {db : DB} (doc : PdfDocument) (folder : String)
    (h : paths_unique db) : paths_unique (insert_pdf db doc folder) := by
  unfold paths_unique insert_pdf
  rw [List.map_append]
  apply List.Nodup.append
  · exact paths_unique_of_filter _ h
  · simp
  · intro x hx1 hx2
    simp only [List.map_cons, List.map_nil, List.mem_singleton] at hx2
    rcases List.mem_map.mp hx1 with ⟨r, hr, hrx⟩
    rcases List.mem_filter.mp hr with ⟨_, hrne⟩
    simp only [decide_eq_true_eq] at hrne
    apply hrne
    rw [hrx, hx2]
    rfl

theorem paths_unique_batch_go (stmt_fails : PdfDocument → Bool) (folder : String) (orig : DB)
    (horig : paths_unique orig) :
    ∀ (docs : List PdfDocument) (cur : DB), paths_unique cur →
      paths_unique (batch_insert_go stmt_fails folder orig cur docs).1
  | [], cur, hcur => hcur
  | d :: ds, cur, hcur => by
    by_cases h0 : stmt_fails d = true
    · simpa [batch_insert_go, h0] using horig
    · rw [Bool.not_eq_true] at h0
      have ih := paths_unique_batch_go stmt_fails folder orig horig ds
        (insert_pdf cur d folder) (paths_unique_insert d folder hcur)
      simpa [batch_insert_go, h0] using ih

theorem paths_unique_fold_remove :
    ∀ (l : List String) (db : DB), paths_unique db →
      paths_unique (l.foldl (fun d p => remove_pdf_by_path d p) db)
  | [], _, h => h
  | p :: l, db, h => by
    rw [List.foldl_cons]
    exact paths_unique_fold_remove l (remove_pdf_by_path db p)
      (paths_unique_of_filter _ h)

theorem paths_unique_add_indexed_folder (db : DB) (f : String) (now : Int)
    (h : paths_unique db) : paths_unique (add_indexed_folder db f now) := h

theorem paths_unique_index_folder (cfg : IndexConfig) (oracle : String → ExtractOutcome)
    (db : DB) (folder : String) (files : List FsFile) (now : Int) (h : paths_unique db) :
    paths_unique (index_folder cfg oracle db folder files now).1 := by
  unfold index_folder
  by_cases h1 : files = []
  · simpa [h1] using paths_unique_add_indexed_folder _ _ _ h
  · rw [if_neg h1]
    have h2 := paths_unique_fold_remove
      (((get_files_in_folder db folder).map (fun e => e.1)).filter
        (fun p => decide (p ∉ files.map FsFile.path))) db h
    by_cases h3 : filter_files_to_process files (get_files_in_folder db folder) = []
    · simp only [h3, if_pos]
      apply paths_unique_add_indexed_folder
      unfold remove_deleted_files
      exact h2
    · rw [if_neg h3]
      apply paths_unique_add_indexed_folder
      by_cases h4 : 0 < ((filter_files_to_process files
          (get_files_in_folder db folder)).filterMap
            fun f => (extract_pdf_data cfg oracle f).toOption).length
      · rw [if_pos h4]
        apply paths_unique_batch_go
        · unfold remove_deleted_files
          exact h2
        · unfold remove_deleted_files
          exact h2
      · rw [if_neg h4]
        unfold remove_deleted_files
        exact h2

theorem paths_unique_apply_op (db : DB) (op : StoreOp) (h : paths_unique db) :
    paths_unique (apply_store_op db op) := by
  cases op with
  | insertOp doc folder => exact paths_unique_insert doc folder h
  | batchOp fails docs folder => exact paths_unique_batch_go fails folder db h docs db h
  | removePathOp p => exact paths_unique_of_filter _ h
  | removeFolderOp f => exact paths_unique_of_filter _ h
  | removePdfsForFolderOp f => exact paths_unique_of_filter _ h
  | clearOp => simp [apply_store_op, clear, paths_unique]
  | indexRunOp cfg oracle folder files now =>
    exact paths_unique_index_folder cfg oracle db folder files now h

theorem paths_unique_foldl :
    ∀ (ops : List StoreOp) (db : DB), paths_unique db →
      paths_unique (ops.foldl apply_store_op db)
  | [], _, h => h
  | op :: ops, db, h => by
    rw [List.foldl_cons]
    exact paths_unique_foldl ops (apply_store_op db op) (paths_unique_apply_op db op h)

/-- Claim C8. After any finite sequence of insert, batch-insert, removal and
    re-indexing operations (starting from the empty store), at most one
    Document row exists for any given path; inserting a document whose path
    already exists replaces the prior record rather than creating a
    duplicate: afterwards the rows at that path are exactly the one new row,
    and the rows at every other path are unchanged. -/
theorem path_uniqueness_invariant :
    (∀ (ops : List StoreOp) (p : String),
      ((ops.foldl apply_store_op DB.empty).pdfs.countP (fun r => decide (r.path = p))) ≤ 1) ∧
    (∀ (db : DB) (doc : PdfDocument) (folder : String),
      (insert_pdf db doc folder).pdfs.filter (fun r => r.path = doc.path) =
        [row_of db.next_id doc folder] ∧
      (insert_pdf db doc folder).pdfs.filter (fun r => r.path ≠ doc.path) =
        db.pdfs.filter (fun r => r.path ≠ doc.path)) := by
  constructor
  · intro ops p
    exact countP_path_le_one (paths_unique_foldl ops DB.empty paths_unique_empty) p
  · intro db doc folder
    constructor
    · unfold insert_pdf
      rw [List.filter_append, List.filter_filter]
      have h1 : db.pdfs.filter (fun a =>
          decide (a.path = doc.path) && decide (a.path ≠ doc.path)) = [] := by
        rw [List.filter_eq_nil_iff]
        intro a _
        by_cases h : a.path = doc.path <;> simp [h]
      rw [h1]
      simp [row_of]
    · unfold insert_pdf
      rw [List.filter_append, List.filter_filter]
      have h1 : [row_of db.next_id doc folder].filter (fun r => r.path ≠ doc.path) = [] := by
        simp [row_of]
      rw [h1, List.append_nil]
      apply List.filter_congr
      intro a _
      by_cases h : a.path = doc.path <;> simp [h]

theorem find_append_last (f : String) (now : Int) :
    ∀ (l : List (String × Int)), (∀ e ∈ l, e.1 ≠ f) →
      (l ++ [(f, now)]).find? (fun e => e.1 = f) = some (f, now)
  | [], _ => by simp
  | e :: l, h => by
    have he : decide (e.1 = f) = false := by simp [h e (by simp)]
    rw [List.cons_append, List.find?_cons, he]
    exact find_append_last f now l (fun x hx => h x (List.mem_cons_of_mem e hx))

theorem find_add_indexed_folder (db : DB) (f : String) (now : Int) :
    (add_indexed_folder db f now).folders.find? (fun e => e.1 = f) = some (f, now) := by
  unfold add_indexed_folder
  apply find_append_last
  intro e he
  rcases List.mem_filter.mp he with ⟨_, hne⟩
  simpa using hne

theorem extract_text_from_pdf_isOk (cfg : IndexConfig) (s : Int) (oc : ExtractOutcome) :
    ∃ v, extract_text_from_pdf cfg true s oc = .ok v := by
  unfold extract_text_from_pdf
  split_ifs with h1 h2 h3
  · exact absurd h1 (by decide)
  · exact ⟨_, rfl⟩
  · exact ⟨_, rfl⟩
  · cases oc with
    | ok text =>
      by_cases h : text = []
      · subst h
        exact ⟨([], 0), rfl⟩
      · exact ⟨(normalize_text text, estimate_page_count text), if_neg h⟩
    | extractError => exact ⟨_, rfl⟩
    | crashed => exact ⟨_, rfl⟩

theorem extract_pdf_data_isOk (cfg : IndexConfig) (oracle : String → ExtractOutcome)
    (f : FsFile) : ∃ doc, extract_pdf_data cfg oracle f = .ok doc ∧ doc.path = f.path := by
  obtain ⟨v, hv⟩ := extract_text_from_pdf_isOk cfg f.size (oracle f.path)
  unfold extract_pdf_data
  rw [hv]
  exact ⟨_, rfl, rfl⟩

theorem extracted_docs_length (cfg : IndexConfig) (oracle : String → ExtractOutcome) :
    ∀ (l : List FsFile),
      (l.filterMap (fun f => (extract_pdf_data cfg oracle f).toOption)).length = l.length
  | [] => rfl
  | f :: l => by
    obtain ⟨doc, hd, _⟩ := extract_pdf_data_isOk cfg oracle f
    rw [List.filterMap_cons, hd]
    show (doc :: l.filterMap fun f => (extract_pdf_data cfg oracle f).toOption).length =
      (f :: l).length
    rw [List.length_cons, List.length_cons, extracted_docs_length cfg oracle l]

/-- Claim C9. Every successful indexing run records the folder's last-indexed
    timestamp — including runs that discover zero files and runs that find
    zero changed files, both of which succeed and return a processed count of
    0 — and the value returned by a run is the count of documents newly
    processed in that run (the changed files), not the total number of
    documents in the folder. -/
theorem index_folder_records_timestamp_and_count (cfg : IndexConfig)
    (oracle : String → ExtractOutcome) (db : DB) (folder : String)
    (pdf_files : List FsFile) (now : Int) :
    ((index_folder cfg oracle db folder pdf_files now).1.folders.find?
        (fun e => e.1 = folder) = some (folder, now)) ∧
    (index_folder cfg oracle db folder pdf_files now).2 =
      (filter_files_to_process pdf_files (get_files_in_folder db folder)).length ∧
    (pdf_files = [] → (index_folder cfg oracle db folder pdf_files now).2 = 0) ∧
    (filter_files_to_process pdf_files (get_files_in_folder db folder) = [] →
      (index_folder cfg oracle db folder pdf_files now).2 = 0) := by
  by_cases h1 : pdf_files = []
  · subst h1
    refine ⟨?_, ?_, fun _ => rfl, fun _ => rfl⟩
    · simpa [index_folder] using find_add_indexed_folder db folder now
    · rfl
  · by_cases h3 : filter_files_to_process pdf_files (get_files_in_folder db folder) = []
    · have hrun : index_folder cfg oracle db folder pdf_files now =
          (add_indexed_folder
            (remove_deleted_files db pdf_files (get_files_in_folder db folder))
            folder now, 0) := by
        unfold index_folder
        rw [if_neg h1]
        simp only [h3, if_pos]
      refine ⟨?_, ?_, fun h => absurd h h1, fun _ => by rw [hrun]⟩
      · rw [hrun]
        exact find_add_indexed_folder _ folder now
      · rw [hrun, h3]
        rfl
    · have hcount : ((filter_files_to_process pdf_files
          (get_files_in_folder db folder)).filterMap
            fun f => (extract_pdf_data cfg oracle f).toOption).length =
          (filter_files_to_process pdf_files (get_files_in_folder db folder)).length :=
        extracted_docs_length cfg oracle _
      have hrun : index_folder cfg oracle db folder pdf_files now =
          (add_indexed_folder
            (if 0 < ((filter_files_to_process pdf_files
                (get_files_in_folder db folder)).filterMap
                  fun f => (extract_pdf_data cfg oracle f).toOption).length then
              (batch_insert_pdfs (fun _ => false)
                (remove_deleted_files db pdf_files (get_files_in_folder db folder))
                ((filter_files_to_process pdf_files
                  (get_files_in_folder db folder)).filterMap
                    fun f => (extract_pdf_data cfg oracle f).toOption) folder).1
            else remove_deleted_files db pdf_files (get_files_in_folder db folder))
            folder now,
          ((filter_files_to_process pdf_files
            (get_files_in_folder db folder)).filterMap
              fun f => (extract_pdf_data cfg oracle f).toOption).length) := by
        unfold index_folder
        rw [if_neg h1, if_neg h3]
      refine ⟨?_, ?_, fun h => absurd h h1, fun h => absurd h h3⟩
      · rw [hrun]
        exact find_add_indexed_folder _ folder now
      · rw [hrun, hcount]

theorem index_folder_records_timestamp_and_count_witness :
    (index_folder IndexConfig.default (fun _ => ExtractOutcome.extractError)
        stale_db "f" [] 0).2 = 0 :=
  (index_folder_records_timestamp_and_count IndexConfig.default
    (fun _ => ExtractOutcome.extractError) stale_db "f" [] 0).2.2.1 rfl

/-- Claim C10. For every search call whose date_from or date_to filter string
    does not parse as a YYYY-MM-DD calendar date, that bound is silently
    ignored — the search behaves exactly as if that filter were absent —
    rather than the search call returning an error. -/
theorem search_ignores_unparsable_dates (match_fts : List Char → PdfRow → Bool)
    (rank_order : List PdfRow → List PdfRow)
    (snippet_of : List Char → PdfRow → Option (List Char))
    (db : DB) (query : List Char) (filters : SearchFilters) :
    (∀ d, filters.date_from = some d → parse_date_to_timestamp d = none →
      search match_fts rank_order snippet_of db query filters =
        search match_fts rank_order snippet_of db query { filters with date_from := none }) ∧
    (∀ d, filters.date_to = some d → parse_date_to_timestamp d = none →
      search match_fts rank_order snippet_of db query filters =
        search match_fts rank_order snippet_of db query { filters with date_to := none }) := by
  constructor
  · intro d hdf hp
    simp only [search, hdf, hp]
  · intro d hdt hp
    simp only [search, hdt, hp]

theorem search_ignores_unparsable_dates_witness :
    search (fun _ _ => true) id (fun _ _ => none) stale_db ("a".toList)
        ⟨none, none, some ("bad-date".toList), none⟩ =
      search (fun _ _ => true) id (fun _ _ => none) stale_db ("a".toList)
        ⟨none, none, none, none⟩ :=
  (search_ignores_unparsable_dates (fun _ _ => true) id (fun _ _ => none) stale_db
    ("a".toList) ⟨none, none, some ("bad-date".toList), none⟩).1
    ("bad-date".toList) rfl (by decide)

theorem mem_foldl_remove :
    ∀ (l : List String) (db : DB) (r : PdfRow),
      r ∈ (l.foldl (fun d p => remove_pdf_by_path d p) db).pdfs ↔
        r ∈ db.pdfs ∧ r.path ∉ l
  | [], db, r => by simp
  | a :: l, db, r => by
    rw [List.foldl_cons, mem_foldl_remove l (remove_pdf_by_path db a) r]
    unfold remove_pdf_by_path
    simp only [List.mem_filter, List.mem_cons, decide_eq_true_eq]
    constructor
    · rintro ⟨⟨hmem, hne⟩, hnl⟩
      exact ⟨hmem, by simp [hne, hnl]⟩
    · rintro ⟨hmem, hn⟩
      rw [not_or] at hn
      exact ⟨⟨hmem, hn.1⟩, hn.2⟩

theorem mem_paths_insert {db : DB} {doc : PdfDocument} {folder : String} {x : String}
    (h : x ∈ (insert_pdf db doc folder).pdfs.map PdfRow.path) :
    x ∈ db.pdfs.map PdfRow.path ∨ x = doc.path := by
  unfold insert_pdf at h
  rw [List.map_append] at h
  rcases List.mem_append.mp h with h | h
  · rcases List.mem_map.mp h with ⟨r, hr, hrx⟩
    subst hrx
    exact Or.inl (List.mem_map_of_mem PdfRow.path (List.mem_of_mem_filter hr))
  · rcases List.mem_map.mp h with ⟨r, hr, hrx⟩
    rw [List.mem_singleton] at hr
    subst hr
    exact Or.inr (by rw [← hrx]; rfl)

theorem mem_paths_batch_go_nofail (folder : String) (orig : DB) :
    ∀ (docs : List PdfDocument) (cur : DB) (x : String),
      x ∈ ((batch_insert_go (fun _ => false) folder orig cur docs).1.pdfs.map PdfRow.path) →
        x ∈ cur.pdfs.map PdfRow.path ∨ x ∈ docs.map PdfDocument.path
  | [], _, x, h => Or.inl h
  | d :: ds, cur, x, h => by
    replace h : x ∈ ((batch_insert_go (fun _ => false) folder orig
        (insert_pdf cur d folder) ds).1.pdfs.map PdfRow.path) := h
    rcases mem_paths_batch_go_nofail folder orig ds (insert_pdf cur d folder) x h with h2 | h2
    · rcases mem_paths_insert h2 with h3 | h3
      · exact Or.inl h3
      · exact Or.inr (by rw [h3]; simp)
    · exact Or.inr (List.mem_cons_of_mem _ h2)

theorem mem_docs_paths (cfg : IndexConfig) (oracle : String → ExtractOutcome) :
    ∀ (l : List FsFile) (x : String),
      x ∈ ((l.filterMap fun f => (extract_pdf_data cfg oracle f).toOption).map
        PdfDocument.path) →
      x ∈ l.map FsFile.path
  | [], x, h => by simp at h
  | f :: l, x, h => by
    obtain ⟨doc, hd, hp⟩ := extract_pdf_data_isOk cfg oracle f
    rw [List.filterMap_cons, hd] at h
    replace h : x ∈ ((doc :: l.filterMap fun f =>
        (extract_pdf_data cfg oracle f).toOption).map PdfDocument.path) := h
    rw [List.map_cons] at h
    rcases List.mem_cons.mp h with h2 | h2
    · subst h2
      rw [List.map_cons, hp]
      exact List.mem_cons_self _ _
    · exact List.mem_cons_of_mem _ (mem_docs_paths cfg oracle l x h2)

/-- Claim C1, counterexample. The claim says every snapshot path absent from
    disk is removed by the end of the run, including when the folder now
    contains zero matching files on disk. But `index_folder` returns early
    when discovery finds no files, before the deletion cleanup: with a store
    knowing `"f/a.pdf"` for folder `"f"` and an empty discovery list, the
    document row survives the run. -/
theorem stale_file_kept_when_no_files_discovered :
    "f/a.pdf" ∈ (get_files_in_folder stale_db "f").map (fun e => e.1) ∧
    "f/a.pdf" ∈ ((index_folder IndexConfig.default (fun _ => ExtractOutcome.extractError)
      stale_db "f" [] 0).1.pdfs.map PdfRow.path) :=
  ⟨by decide, by decide⟩

/-- Claim C1, amended. For every indexing run of a folder that discovers at
    least one matching file on disk, every path present in the store's
    known-files snapshot for that folder but absent from the files discovered
    on disk is removed from the Document store by the end of the run (when
    the folder contains zero matching files on disk the run returns early
    and removes nothing); and removing an indexed folder removes both its
    folder record and every Document whose folder path matches. -/
theorem index_folder_stale_removal_and_folder_removal :
    (∀ (cfg : IndexConfig) (oracle : String → ExtractOutcome) (db : DB) (folder : String)
      (pdf_files : List FsFile) (now : Int) (p : String),
      pdf_files ≠ [] →
      p ∈ (get_files_in_folder db folder).map (fun e => e.1) →
      p ∉ pdf_files.map FsFile.path →
      p ∉ (index_folder cfg oracle db folder pdf_files now).1.pdfs.map PdfRow.path) ∧
    (∀ (db : DB) (folder : String),
      (∀ r ∈ (remove_indexed_folder db folder).pdfs, r.folder_path ≠ folder) ∧
      (∀ e ∈ (remove_indexed_folder db folder).folders, e.1 ≠ folder)) := by
  constructor
  · intro cfg oracle db folder pdf_files now p h1 hsnap hdisk
    have hdel : p ∈ ((get_files_in_folder db folder).map (fun e => e.1)).filter
        (fun q => q ∉ pdf_files.map FsFile.path) :=
      List.mem_filter.mpr ⟨hsnap, by simpa using hdisk⟩
    have hdb1 : p ∉ (remove_deleted_files db pdf_files
        (get_files_in_folder db folder)).pdfs.map PdfRow.path := by
      intro hmem
      rcases List.mem_map.mp hmem with ⟨r, hr, hrp⟩
      unfold remove_deleted_files at hr
      rw [mem_foldl_remove] at hr
      exact hr.2 (by rw [hrp]; exact hdel)
    by_cases h3 : filter_files_to_process pdf_files (get_files_in_folder db folder) = []
    · have hrun : index_folder cfg oracle db folder pdf_files now =
          (add_indexed_folder
            (remove_deleted_files db pdf_files (get_files_in_folder db folder))
            folder now, 0) := by
        unfold index_folder
        rw [if_neg h1]
        simp only [h3, if_pos]
      rw [hrun]
      exact hdb1
    · have hrun : index_folder cfg oracle db folder pdf_files now =
          (add_indexed_folder
            (if 0 < ((filter_files_to_process pdf_files
                (get_files_in_folder db folder)).filterMap
                  fun f => (extract_pdf_data cfg oracle f).toOption).length then
              (batch_insert_pdfs (fun _ => false)
                (remove_deleted_files db pdf_files (get_files_in_folder db folder))
                ((filter_files_to_process pdf_files
                  (get_files_in_folder db folder)).filterMap
                    fun f => (extract_pdf_data cfg oracle f).toOption) folder).1
            else remove_deleted_files db pdf_files (get_files_in_folder db folder))
            folder now,
          ((filter_files_to_process pdf_files
            (get_files_in_folder db folder)).filterMap
              fun f => (extract_pdf_data cfg oracle f).toOption).length) := by
        unfold index_folder
        rw [if_neg h1, if_neg h3]
      rw [hrun]
      by_cases h4 : 0 < ((filter_files_to_process pdf_files
          (get_files_in_folder db folder)).filterMap
            fun f => (extract_pdf_data cfg oracle f).toOption).length
      · rw [if_pos h4]
        intro hmem
        replace hmem : p ∈ ((batch_insert_go (fun _ => false) folder
            (remove_deleted_files db pdf_files (get_files_in_folder db folder))
            (remove_deleted_files db pdf_files (get_files_in_folder db folder))
            ((filter_files_to_process pdf_files
              (get_files_in_folder db folder)).filterMap
                fun f => (extract_pdf_data cfg oracle f).toOption)).1.pdfs.map
            PdfRow.path) := hmem
        rcases mem_paths_batch_go_nofail folder _ _ _ p hmem with h5 | h5
        · exact hdb1 h5
        · exact hdisk (List.Sublist.subset
            (List.Sublist.map FsFile.path (List.filter_sublist pdf_files))
            (mem_docs_paths cfg oracle _ p h5))
      · rw [if_neg h4]
        exact hdb1
  · intro db folder
    constructor
    · intro r hr
      rcases List.mem_filter.mp hr with ⟨_, hne⟩
      simpa using hne
    · intro e he
      rcases List.mem_filter.mp he with ⟨_, hne⟩
      simpa using hne

theorem index_folder_stale_removal_and_folder_removal_witness :
    "f/a.pdf" ∉ ((index_folder IndexConfig.default
        (fun _ => ExtractOutcome.ok ("hi".toList)) stale_db "f"
        [⟨"f/b.pdf", 200, 20⟩] 7).1.pdfs.map PdfRow.path) ∧
    (⟨1, "f/a.pdf", "a", [], 500, 10, some 1, "f"⟩ : PdfRow).folder_path ≠ "g" :=
  ⟨(index_folder_stale_removal_and_folder_removal.1 IndexConfig.default
      (fun _ => ExtractOutcome.ok ("hi".toList)) stale_db "f"
      [⟨"f/b.pdf", 200, 20⟩] 7 "f/a.pdf" (by decide) (by decide) (by decide)),
   ((index_folder_stale_removal_and_folder_removal.2 stale_db "g").1
      ⟨1, "f/a.pdf", "a", [], 500, 10, some 1, "f"⟩ (by decide))⟩

end PdfFinder
